import Mathlib

/-!
Shallow embedding of `kernels/portable/cpu/op_fmod.cpp` (the two kernel
entry points `fmod_Tensor_out` and `fmod_Scalar_out`) together with the
runtime utilities they call.  The utilities (type promotion, cast policy,
broadcasting, the elementwise appliers, scalar extraction) are not part of
the source tree given here, so they are modelled from the specification;
the two entry points themselves are translated statement by statement from
the C++ source.
-/

/-- The element-type tags of the runtime ("ScalarType"). Modelled from the
spec: a fixed finite set of signed/unsigned integer widths, floating widths
and boolean (`Byte` = uint8, `Char` = int8, `Short` = int16, `Int` = int32,
`Long` = int64, `Float` = float32, `Double` = float64, `Bool`). -/
inductive ScalarType where
  | Byte | Char | Short | Int | Long | Float | Double | Bool
  deriving DecidableEq, Repr, Fintype

/-- Promotion rank of a type tag (booleans lowest, then integers by width,
then floating types by width).  `Byte` and `Char` share a rank; their mix
is special-cased in `promoteTypes`. -/
def promoRank : ScalarType → Nat
  | .Bool => 0
  | .Byte => 1
  | .Char => 1
  | .Short => 2
  | .Int => 3
  | .Long => 4
  | .Float => 5
  | .Double => 6

/-- Modelled from the spec: `promoteTypes` (the platform promotion-rank
table, consumed by the kernel as a black box).  Booleans promote below all
integer types; the same-width signed/unsigned mix (`Byte`/`Char`) promotes
to the wider signed `Short`; otherwise the higher-ranked tag wins, so any
integer mixed with a floating tag promotes to that floating tag and two
floating tags promote to the wider one. -/
def promoteTypes (x y : ScalarType) : ScalarType :=
  if x = y then x
  else if x = .Bool then y
  else if y = .Bool then x
  else if (x = .Byte ∧ y = .Char) ∨ (x = .Char ∧ y = .Byte) then .Short
  else if promoRank y ≤ promoRank x then x else y

/-- Integer (non-floating, non-boolean) type tags. -/
def isIntTag : ScalarType → Bool
  | .Byte | .Char | .Short | .Int | .Long => true
  | _ => false

/-- Floating-point type tags. -/
def isFloatTag : ScalarType → Bool
  | .Float | .Double => true
  | _ => false

/-- `executorch::isIntegralType(t, includeBool)` as used by the kernel:
true on the integer tags, and on `Bool` as well when `includeBool`. -/
def isIntegralType (t : ScalarType) (includeBool : Bool) : Bool :=
  isIntTag t || (includeBool && t = ScalarType.Bool)

/-- Modelled from the spec: the platform cast-compatibility oracle
`canCast(src, dst)`.  A floating value may not be cast down to an integer
tag, and nothing but boolean casts to boolean; all other combinations of
the real tags are allowed. -/
def canCast (src dst : ScalarType) : Bool :=
  !(isFloatTag src && isIntTag dst) && !(src ≠ ScalarType.Bool && dst = ScalarType.Bool)

/-- The tag set covered by the `ET_SWITCH_REAL_TYPES` dispatch level:
all integer and floating tags, no boolean. -/
def isRealType (t : ScalarType) : Bool :=
  isIntTag t || isFloatTag t

/-- The tag set covered by `ET_SWITCH_REAL_TYPES_AND(Bool, ...)`:
the real tags plus boolean. -/
def isRealBType (t : ScalarType) : Bool :=
  isRealType t || t = ScalarType.Bool

/-- The tag set covered by `ET_SWITCH_SCALAR_OBJ_TYPES` (the tags a tagged
Scalar can carry): boolean, the widest integer, the widest floating tag. -/
def isScalarObjType (t : ScalarType) : Bool :=
  t = ScalarType.Bool || t = ScalarType.Long || t = ScalarType.Double

/-- A modelled floating-point value: either NaN or an exact finite value
(rounding of the binary formats is not modelled; all concrete values used
in the development are exactly representable). -/
inductive FloatVal where
  | nan
  | num (q : Rat)
  deriving DecidableEq, Repr

/-- A stored element value: integral representation (covers the integer
tags and boolean as 0/1) or floating representation. -/
inductive Value where
  | vi (z : Int)
  | vf (x : FloatVal)
  deriving DecidableEq, Repr

/-- The `val != 0` test of `ET_CHECK(val_b != 0)`, on a stored value.
NaN compares unequal to zero. -/
def valIsZero : Value → Bool
  | .vi z => z = 0
  | .vf (.num q) => q = 0
  | .vf .nan => false

/-- Truncation of a rational toward zero (the C `static_cast` of a
floating value to an integer representation). -/
def ratTrunc (q : Rat) : Int := q.num.tdiv q.den

/-- Wrap an integer into the signed two-complement range of width `w`
(the C narrowing conversion between integer representations). -/
def wrapS (w : Nat) (z : Int) : Int := (z + 2 ^ (w - 1)) % 2 ^ w - 2 ^ (w - 1)

/-- Integer representation of `z` under tag `t`: unsigned wrap for `Byte`,
signed wrap for the signed widths, 0/1 for boolean. -/
def toIntRep : ScalarType → Int → Int
  | .Byte, z => z % 2 ^ 8
  | .Char, z => wrapS 8 z
  | .Short, z => wrapS 16 z
  | .Int, z => wrapS 32 z
  | .Long, z => wrapS 64 z
  | .Bool, z => if z = 0 then 0 else 1
  | _, z => z

/-- Read a stored value as an integer (truncating a floating value; NaN
reads as 0, a modelling choice for a conversion C leaves undefined). -/
def valToInt : Value → Int
  | .vi z => z
  | .vf .nan => 0
  | .vf (.num q) => ratTrunc q

/-- Read a stored value as a floating value (integers convert exactly). -/
def valToFloat : Value → FloatVal
  | .vi z => .num (mkRat z 1)
  | .vf x => x

/-- The C `static_cast` of a stored value to the native representation of
tag `t`. -/
def castValue (t : ScalarType) (v : Value) : Value :=
  if isFloatTag t then .vf (valToFloat v) else .vi (toIntRep t (valToInt v))

/-- Modelled from the spec: native `std::fmod` on floating values.  For
finite `a, b` with `b ≠ 0` the result is exactly `a - trunc(a/b) * b`;
a zero divisor or a NaN operand yields NaN. -/
def fmodFloat : FloatVal → FloatVal → FloatVal
  | .nan, _ => .nan
  | .num _, .nan => .nan
  | .num a, .num b =>
    if b = 0 then .nan
    else
      let q := (a.num * (b.den : Int)).tdiv ((a.den : Int) * b.num)
      .num (mkRat (a.num * (b.den : Int) - q * (b.num * (a.den : Int))) (a.den * b.den))

/-- The computation `std::fmod(a_casted, b_casted)` at compute tag `t`:
floating `fmod` when `t` is floating; for an integer compute tag the C
code routes through `double` and truncates back, which on in-range values
is the truncating integer remainder `Int.tmod`. -/
def fmodIn (t : ScalarType) (a b : Value) : Value :=
  if isFloatTag t then .vf (fmodFloat (valToFloat a) (valToFloat b))
  else .vi (Int.tmod (valToInt a) (valToInt b))

/-- A tensor: logical shape, element-type tag, and the element buffer. -/
structure Tensor where
  sizes : List Nat
  dtype : ScalarType
  data : List Value
  deriving DecidableEq, Repr

/-- A tagged scalar operand (boolean, integral, or floating payload). -/
inductive Scalar where
  | b (v : Bool)
  | i (z : Int)
  | f (x : FloatVal)
  deriving DecidableEq, Repr

/-- Number of elements implied by a shape. -/
def numel (s : List Nat) : Nat := s.foldr (· * ·) 1

/-- Broadcast two reversed (trailing-dimension-first) shape lists.
Modelled from the spec: extents are compatible when equal or when either
is 1; missing leading dimensions count as extent 1. -/
def bcDimsRev : List Nat → List Nat → Option (List Nat)
  | [], ys => some ys
  | x :: xs, [] => some (x :: xs)
  | x :: xs, y :: ys =>
    match bcDimsRev xs ys with
    | none => none
    | some rest =>
      if x = y then some (x :: rest)
      else if x = 1 then some (y :: rest)
      else if y = 1 then some (x :: rest)
      else none

/-- Modelled from the spec: `broadcastShape(shapeA, shapeB)`; `none` means
the shapes are incompatible (ShapeMismatch). -/
def broadcastShape (a b : List Nat) : Option (List Nat) :=
  (bcDimsRev a.reverse b.reverse).map List.reverse

/-- Row-major coordinate (trailing dimension first) of linear index `i`
in a reversed shape. -/
def coordOfRev : List Nat → Nat → List Nat
  | [], _ => []
  | d :: ds, i => (i % d) :: coordOfRev ds (i / d)

/-- Linear index into an operand with reversed dims `ds` of the reversed
output coordinate `cs`, zeroing every coordinate where the operand extent
is 1 (broadcast repetition). -/
def idxRev : List Nat → List Nat → Nat
  | d :: ds, c :: cs => (if d = 1 then 0 else c) + d * idxRev ds cs
  | _, _ => 0

/-- The broadcast-matched element of tensor `t` at linear output position
`i` of output shape `s`. -/
def bcastGet (t : Tensor) (s : List Nat) (i : Nat) : Value :=
  t.data.getD (idxRev t.sizes.reverse (coordOfRev s.reverse i)) (Value.vi 0)

/-- Modelled from the spec: the tensor resize primitive.  If the requested
shape equals the current one nothing happens; otherwise the logical shape
is replaced and the buffer reallocated (fresh storage, modelled as
default-initialised), the element tag being preserved. -/
def resize_tensor (t : Tensor) (s : List Nat) : Tensor :=
  if t.sizes = s then t
  else { sizes := s, dtype := t.dtype, data := List.replicate (numel s) (Value.vi 0) }

/-- The failure kinds of the error taxonomy (each `ET_CHECK` / dispatch
failure site of the kernel is mapped to its kind). -/
inductive Err where
  | ShapeMismatch
  | CastNotAllowed
  | UnsupportedType
  | DomainViolation
  deriving DecidableEq, Repr

/-- Outcome of a kernel call.  `fatal e out` records the fatal check kind
together with the state of the caller-owned output tensor at the moment
the call aborted (the process aborts; the buffer is whatever was written
so far). -/
inductive KernelResult where
  | ok (out : Tensor)
  | fatal (e : Err) (out : Tensor)
  deriving DecidableEq, Repr

/-- The per-element lambda of `fmod_Tensor_out` (source lines 51-64):
check `val_b != 0` when the common type is integral (including boolean),
cast both operands to the compute tag, take `std::fmod` there, and cast
the result to the output tag. -/
def fmodElem (common outT : ScalarType) (va vb : Value) : Except Err Value :=
  if isIntegralType common true && valIsZero vb then .error .DomainViolation
  else
    .ok (castValue outT (fmodIn common (castValue common va) (castValue common vb)))

/-- The sequential element loop of `apply_binary_elementwise_fn`, modelled
from the spec: positions `i, i+1, ...` (`k` of them) are processed in
order; each successful element is written, and a fatal per-element check
aborts the loop with the positions before it already written.  Returns the
written prefix and the error, if any. -/
def applyBinLoop (f : Value → Value → Except Err Value) (a b : Tensor)
    (s : List Nat) : Nat → Nat → List Value × Option Err
  | _, 0 => ([], none)
  | i, k + 1 =>
    match f (bcastGet a s i) (bcastGet b s i) with
    | .error e => ([], some e)
    | .ok v =>
      let r := applyBinLoop f a b s (i + 1) k
      (v :: r.1, r.2)

/-- Modelled from the spec: `apply_binary_elementwise_fn` iterates every
logical position of `out`'s shape in row-major order, reads the broadcast
matched elements of `a` and `b`, applies `f` and stores the result;
positions at and after a fatal per-element check keep their previous
contents. -/
def apply_binary_elementwise_fn (f : Value → Value → Except Err Value)
    (a b out : Tensor) : Tensor × Option Err :=
  let r := applyBinLoop f a b out.sizes 0 (numel out.sizes)
  ({ out with data := r.1 ++ out.data.drop r.1.length }, r.2)

/-- Embedding of `fmod_Tensor_out` (source lines 22-74): resize `out` to
the broadcast target size (fatal ShapeMismatch if the shapes are not
broadcast-compatible), promote the input tags, check `canCast` against the
output tag, dispatch on the four tags (`a`/`b` over the real types plus
boolean, compute and output over the real types only — an uncovered tag is
a fatal UnsupportedType), then run the elementwise applier with the fmod
lambda. -/
def fmod_Tensor_out (a b out : Tensor) : KernelResult :=
  match broadcastShape a.sizes b.sizes with
  | none => .fatal .ShapeMismatch out
  | some s =>
    let out1 := resize_tensor out s
    let a_type := a.dtype
    let b_type := b.dtype
    let common_type := promoteTypes a_type b_type
    let out_type := out1.dtype
    if !canCast common_type out_type then .fatal .CastNotAllowed out1
    else if !isRealBType a_type then .fatal .UnsupportedType out1
    else if !isRealBType b_type then .fatal .UnsupportedType out1
    else if !isRealType common_type then .fatal .UnsupportedType out1
    else if !isRealType out_type then .fatal .UnsupportedType out1
    else
      let r := apply_binary_elementwise_fn (fmodElem common_type out_type) a b out1
      match r.2 with
      | some e => .fatal e r.1
      | none => .ok r.1

/-- `utils::get_scalar_dtype`: the tag a tagged Scalar carries (boolean,
widest integer, or widest floating tag). -/
def get_scalar_dtype : Scalar → ScalarType
  | .b _ => .Bool
  | .i _ => .Long
  | .f _ => .Double

/-- Modelled from the spec: `utils::promote_type_with_scalar` feeds the
scalar's own tag as the second operand of the same promotion-rank lookup a
tensor tag would use. -/
def promote_type_with_scalar (t : ScalarType) (s : Scalar) : ScalarType :=
  promoteTypes t (get_scalar_dtype s)

/-- Modelled from the spec: `ET_EXTRACT_SCALAR` read at the scalar's own
tag (the dispatch tag always matches the payload, so extraction
succeeds). -/
def extractScalar : Scalar → Value
  | .b v => .vi (if v then 1 else 0)
  | .i z => .vi z
  | .f x => .vf x

/-- Modelled from the spec: `apply_unary_map_fn` maps `f` over the first
`n` elements of `a`'s buffer in index order into the output buffer. -/
def apply_unary_map_fn (f : Value → Value) (a : Tensor) (out : Tensor)
    (n : Nat) : Tensor :=
  { out with data := (List.range n).map (fun i => f (a.data.getD i (Value.vi 0))) ++ out.data.drop n }

/-- Embedding of `fmod_Scalar_out` (source lines 76-125): resize `out` to
`a`'s shape, promote `a`'s tag with the scalar, check `canCast`, dispatch
(`a` over real types plus boolean, the scalar tag over the scalar-object
tags, compute and output over the real types), extract the scalar once,
check it against zero once when the common type is integral — before any
element is written — then map the fmod lambda over the buffer. -/
def fmod_Scalar_out (a : Tensor) (b : Scalar) (out : Tensor) : KernelResult :=
  let out1 := resize_tensor out a.sizes
  let a_type := a.dtype
  let b_type := get_scalar_dtype b
  let common_type := promote_type_with_scalar a_type b
  let out_type := out1.dtype
  if !canCast common_type out_type then .fatal .CastNotAllowed out1
  else if !isRealBType a_type then .fatal .UnsupportedType out1
  else if !isScalarObjType b_type then .fatal .UnsupportedType out1
  else
    let val_b := extractScalar b
    if !isRealType common_type then .fatal .UnsupportedType out1
    else if isIntegralType common_type true && valIsZero val_b then
      .fatal .DomainViolation out1
    else if !isRealType out_type then .fatal .UnsupportedType out1
    else
      .ok (apply_unary_map_fn
        (fun va => castValue out_type (fmodIn common_type (castValue common_type va) (castValue common_type val_b)))
        a out1 (numel out1.sizes))

/-- The value the fmod lambda computes and stores for one element when no
check fires: cast both operands to the compute tag, `std::fmod` there,
cast to the output tag. -/
def fmodVal (common outT : ScalarType) (va vb : Value) : Value :=
  castValue outT (fmodIn common (castValue common va) (castValue common vb))

/-- The result of `fmod_Tensor_out` once every pre-compute check has
passed: the elementwise applier runs on the resized output. -/
def fmodTensorApplied (a b o : Tensor) (s : List Nat) : KernelResult :=
  let r := apply_binary_elementwise_fn
    (fmodElem (promoteTypes a.dtype b.dtype) o.dtype) a b (resize_tensor o s)
  match r.2 with
  | some e => .fatal e r.1
  | none => .ok r.1

theorem resize_tensor_dtype (t : Tensor) (s : List Nat) :
    (resize_tensor t s).dtype = t.dtype := by
  unfold resize_tensor; split <;> rfl

theorem resize_tensor_sizes (t : Tensor) (s : List Nat) :
    (resize_tensor t s).sizes = s := by
  unfold resize_tensor; split
  · next h => exact h
  · rfl

theorem resize_tensor_length (t : Tensor) (s : List Nat)
    (h : t.data.length = numel t.sizes) :
    (resize_tensor t s).data.length = numel s := by
  unfold resize_tensor; split
  · next he => rw [h, he]
  · simp

theorem isRealBType_true (t : ScalarType) : isRealBType t = true := by
  revert t; decide

theorem isScalarObjType_dtype (b : Scalar) :
    isScalarObjType (get_scalar_dtype b) = true := by
  cases b <;> rfl

theorem isIntTag_integral {t : ScalarType} (h : isIntTag t = true) :
    isIntegralType t true = true := by
  revert h; revert t; decide

theorem isIntTag_real {t : ScalarType} (h : isIntTag t = true) :
    isRealType t = true := by
  revert h; revert t; decide

theorem isFloatTag_not_integral {t : ScalarType} (h : isFloatTag t = true) :
    isIntegralType t true = false := by
  revert h; revert t; decide

theorem isFloatTag_real {t : ScalarType} (h : isFloatTag t = true) :
    isRealType t = true := by
  revert h; revert t; decide

theorem canCast_real {c d : ScalarType} (hc : isRealType c = true)
    (h : canCast c d = true) : isRealType d = true := by
  revert hc h; revert c d; decide

theorem fmodElem_err {c t : ScalarType} {va vb : Value} {e : Err}
    (h : fmodElem c t va vb = .error e) : e = .DomainViolation := by
  unfold fmodElem at h
  split at h
  · injection h with h2; exact h2.symm
  · cases h

theorem fmodElem_ok_val {c t : ScalarType} {va vb : Value} {v : Value}
    (h : fmodElem c t va vb = .ok v) : v = fmodVal c t va vb := by
  unfold fmodElem at h
  split at h
  · cases h
  · cases h; rfl

theorem fmodElem_not_integral {c t : ScalarType} (va vb : Value)
    (hc : isIntegralType c true = false) :
    fmodElem c t va vb = .ok (fmodVal c t va vb) := by
  unfold fmodElem
  rw [hc]
  rfl

theorem fmodElem_nonzero {c t : ScalarType} (va : Value) {vb : Value}
    (hz : valIsZero vb = false) :
    fmodElem c t va vb = .ok (fmodVal c t va vb) := by
  unfold fmodElem
  rw [hz]
  simp [fmodVal]

theorem fmodElem_int_zero {c : ScalarType} (t : ScalarType) (va : Value) {vb : Value}
    (hc : isIntegralType c true = true) (hz : valIsZero vb = true) :
    fmodElem c t va vb = .error .DomainViolation := by
  unfold fmodElem
  rw [hc, hz]
  rfl

theorem getD_map_range_append (g : Nat → Value) (n i : Nat) (t : List Value)
    (hi : i < n) (d : Value) :
    (((List.range n).map g) ++ t).getD i d = g i := by
  have hlen : i < ((List.range n).map g).length := by simpa using hi
  rw [List.getD_eq_getElem?_getD, List.getElem?_append_left hlen,
    List.getElem?_eq_getElem hlen]
  simp

theorem getD_map_range'_append (g : Nat → Value) (n i : Nat) (t : List Value)
    (hi : i < n) (d : Value) :
    (((List.range' 0 n).map g) ++ t).getD i d = g i := by
  have hlen : i < ((List.range' 0 n).map g).length := by simpa using hi
  rw [List.getD_eq_getElem?_getD, List.getElem?_append_left hlen,
    List.getElem?_eq_getElem hlen]
  simp

theorem applyBinLoop_ok (f : Value → Value → Except Err Value) (a b : Tensor)
    (s : List Nat) (g : Nat → Value)
    (hf : ∀ j, f (bcastGet a s j) (bcastGet b s j) = .ok (g j)) :
    ∀ (k i : Nat), applyBinLoop f a b s i k = ((List.range' i k).map g, none) := by
  intro k
  induction k with
  | zero => intro i; rfl
  | succ n ih =>
    intro i
    simp only [applyBinLoop, hf i, ih (i + 1), List.range'_succ, List.map_cons]

theorem applyBinLoop_none_eq (f : Value → Value → Except Err Value) (a b : Tensor)
    (s : List Nat) (g : Nat → Value)
    (hf : ∀ j v, f (bcastGet a s j) (bcastGet b s j) = .ok v → v = g j) :
    ∀ (k i : Nat), (applyBinLoop f a b s i k).2 = none →
      applyBinLoop f a b s i k = ((List.range' i k).map g, none) := by
  intro k
  induction k with
  | zero => intro i _; rfl
  | succ n ih =>
    intro i hnone
    cases hfe : f (bcastGet a s i) (bcastGet b s i) with
    | error e =>
      exfalso
      simp only [applyBinLoop, hfe] at hnone
      cases hnone
    | ok v =>
      have hv := hf i v hfe
      have h2 : (applyBinLoop f a b s (i + 1) n).2 = none := by
        simp only [applyBinLoop, hfe] at hnone
        exact hnone
      simp only [applyBinLoop, hfe, ih (i + 1) h2, hv, List.range'_succ, List.map_cons]

theorem applyBinLoop_err_val (f : Value → Value → Except Err Value) (a b : Tensor)
    (s : List Nat) (E : Err)
    (hE : ∀ va vb e, f va vb = .error e → e = E) :
    ∀ (k i : Nat) (e : Err), (applyBinLoop f a b s i k).2 = some e → e = E := by
  intro k
  induction k with
  | zero => intro i e h; cases h
  | succ n ih =>
    intro i e h
    cases hfe : f (bcastGet a s i) (bcastGet b s i) with
    | error e2 =>
      simp only [applyBinLoop, hfe] at h
      injection h with h2
      subst h2
      exact hE _ _ _ hfe
    | ok v =>
      simp only [applyBinLoop, hfe] at h
      exact ih (i + 1) e h

theorem applyBinLoop_err_ne_none (f : Value → Value → Except Err Value) (a b : Tensor)
    (s : List Nat) :
    ∀ (k j i : Nat) (e : Err), j < k →
      f (bcastGet a s (i + j)) (bcastGet b s (i + j)) = .error e →
      (applyBinLoop f a b s i k).2 ≠ none := by
  intro k
  induction k with
  | zero => intro j i e hj _; exact absurd hj (Nat.not_lt_zero j)
  | succ n ih =>
    intro j i e hj he
    cases hfe : f (bcastGet a s i) (bcastGet b s i) with
    | error e2 => simp only [applyBinLoop, hfe]; simp
    | ok v =>
      simp only [applyBinLoop, hfe]
      cases j with
      | zero =>
        rw [Nat.add_zero] at he
        rw [he] at hfe
        cases hfe
      | succ m =>
        have hrw : i + (m + 1) = (i + 1) + m := by omega
        rw [hrw] at he
        exact ih m (i + 1) e (by omega) he

theorem applyBinLoop_first_err (f : Value → Value → Except Err Value) (a b : Tensor)
    (s : List Nat) (g : Nat → Value) :
    ∀ (j i k : Nat) (e : Err),
      (∀ m, m < j → f (bcastGet a s (i + m)) (bcastGet b s (i + m)) = .ok (g (i + m))) →
      f (bcastGet a s (i + j)) (bcastGet b s (i + j)) = .error e →
      j < k →
      applyBinLoop f a b s i k = ((List.range' i j).map g, some e) := by
  intro j
  induction j with
  | zero =>
    intro i k e _ he hk
    rw [Nat.add_zero] at he
    cases k with
    | zero => exact absurd hk (Nat.not_lt_zero 0)
    | succ n => simp only [applyBinLoop, he]; rfl
  | succ m ih =>
    intro i k e h1 he hk
    cases k with
    | zero => exact absurd hk (Nat.not_lt_zero _)
    | succ n =>
      have h0 : f (bcastGet a s i) (bcastGet b s i) = .ok (g i) := by
        have h := h1 0 (by omega)
        rwa [Nat.add_zero] at h
      have h1b : ∀ m2, m2 < m →
          f (bcastGet a s ((i + 1) + m2)) (bcastGet b s ((i + 1) + m2)) = .ok (g ((i + 1) + m2)) := by
        intro m2 hm2
        have h := h1 (m2 + 1) (by omega)
        rwa [show i + (m2 + 1) = (i + 1) + m2 by omega] at h
      have heb : f (bcastGet a s ((i + 1) + m)) (bcastGet b s ((i + 1) + m)) = .error e := by
        rwa [show i + (m + 1) = (i + 1) + m by omega] at he
      simp only [applyBinLoop, h0, ih (i + 1) n e h1b heb (by omega),
        List.range'_succ, List.map_cons]

theorem fmod_Tensor_out_compute (a b o : Tensor) (s : List Nat)
    (hbc : broadcastShape a.sizes b.sizes = some s)
    (hcast : canCast (promoteTypes a.dtype b.dtype) o.dtype = true)
    (hcr : isRealType (promoteTypes a.dtype b.dtype) = true) :
    fmod_Tensor_out a b o = fmodTensorApplied a b o s := by
  have hout : isRealType o.dtype = true := canCast_real hcr hcast
  unfold fmod_Tensor_out fmodTensorApplied
  rw [hbc]
  simp only [resize_tensor_dtype, hcast, hcr, hout, isRealBType_true,
    Bool.not_true, Bool.false_eq_true, if_false]

theorem fmod_Tensor_int_zero_divisor (a b o : Tensor) (s : List Nat) (j : Nat)
    (hbc : broadcastShape a.sizes b.sizes = some s)
    (hcast : canCast (promoteTypes a.dtype b.dtype) o.dtype = true)
    (hint : isIntTag (promoteTypes a.dtype b.dtype) = true)
    (hj : j < numel s) (hz : valIsZero (bcastGet b s j) = true) :
    ∃ o2, fmod_Tensor_out a b o = .fatal .DomainViolation o2 := by
  rw [fmod_Tensor_out_compute a b o s hbc hcast (isIntTag_real hint)]
  unfold fmodTensorApplied apply_binary_elementwise_fn
  rw [resize_tensor_sizes]
  set f := fmodElem (promoteTypes a.dtype b.dtype) o.dtype with hfdef
  have hfe : f (bcastGet a s (0 + j)) (bcastGet b s (0 + j)) = .error .DomainViolation := by
    rw [Nat.zero_add]
    exact fmodElem_int_zero o.dtype _ (isIntTag_integral hint) hz
  have hne := applyBinLoop_err_ne_none f a b s (numel s) j 0 .DomainViolation hj hfe
  cases ho : (applyBinLoop f a b s 0 (numel s)).2 with
  | none => exact absurd ho hne
  | some e =>
    have he : e = .DomainViolation :=
      applyBinLoop_err_val f a b s .DomainViolation
        (fun _ _ _ h => fmodElem_err h) (numel s) 0 e ho
    subst he
    dsimp only
    rw [ho]
    exact ⟨_, rfl⟩

theorem fmod_Tensor_float_total (a b o : Tensor) (s : List Nat)
    (hbc : broadcastShape a.sizes b.sizes = some s)
    (hcast : canCast (promoteTypes a.dtype b.dtype) o.dtype = true)
    (hfl : isFloatTag (promoteTypes a.dtype b.dtype) = true) :
    ∃ r, fmod_Tensor_out a b o = .ok r ∧ r.sizes = s ∧
      ∀ i, i < numel s → r.data.getD i (Value.vi 0) =
        fmodVal (promoteTypes a.dtype b.dtype) o.dtype (bcastGet a s i) (bcastGet b s i) := by
  rw [fmod_Tensor_out_compute a b o s hbc hcast (isFloatTag_real hfl)]
  unfold fmodTensorApplied apply_binary_elementwise_fn
  rw [resize_tensor_sizes]
  set g : Nat → Value := fun i =>
    fmodVal (promoteTypes a.dtype b.dtype) o.dtype (bcastGet a s i) (bcastGet b s i) with hgdef
  have hloop := applyBinLoop_ok (fmodElem (promoteTypes a.dtype b.dtype) o.dtype) a b s g
    (fun i => fmodElem_not_integral _ _ (isFloatTag_not_integral hfl)) (numel s) 0
  rw [hloop]
  refine ⟨_, rfl, rfl, ?_⟩
  intro i hi
  exact getD_map_range'_append g (numel s) i _ hi (Value.vi 0)

theorem fmod_Scalar_int_zero (a : Tensor) (b : Scalar) (o : Tensor)
    (hcast : canCast (promote_type_with_scalar a.dtype b) o.dtype = true)
    (hint : isIntTag (promote_type_with_scalar a.dtype b) = true)
    (hz : valIsZero (extractScalar b) = true) :
    fmod_Scalar_out a b o = .fatal .DomainViolation (resize_tensor o a.sizes) := by
  unfold fmod_Scalar_out
  simp only [resize_tensor_dtype, hcast, isRealBType_true, isScalarObjType_dtype,
    isIntTag_real hint, isIntTag_integral hint, hz, Bool.not_true, Bool.false_eq_true,
    if_false, Bool.and_self, if_true]

theorem fmod_Scalar_float_total (a : Tensor) (b : Scalar) (o : Tensor)
    (hcast : canCast (promote_type_with_scalar a.dtype b) o.dtype = true)
    (hfl : isFloatTag (promote_type_with_scalar a.dtype b) = true) :
    ∃ r, fmod_Scalar_out a b o = .ok r ∧ r.sizes = a.sizes ∧
      ∀ i, i < numel a.sizes → r.data.getD i (Value.vi 0) =
        fmodVal (promote_type_with_scalar a.dtype b) o.dtype
          (a.data.getD i (Value.vi 0)) (extractScalar b) := by
  have hout : isRealType o.dtype = true := canCast_real (isFloatTag_real hfl) hcast
  unfold fmod_Scalar_out
  simp only [resize_tensor_dtype, hcast, isRealBType_true, isScalarObjType_dtype,
    isFloatTag_real hfl, isFloatTag_not_integral hfl, hout, Bool.not_true,
    Bool.false_eq_true, if_false, Bool.false_and, if_true]
  refine ⟨_, rfl, ?_, ?_⟩
  · unfold apply_unary_map_fn
    exact resize_tensor_sizes o a.sizes
  · intro i hi
    unfold apply_unary_map_fn
    simp only [resize_tensor_sizes]
    exact getD_map_range_append _ (numel a.sizes) i _ hi (Value.vi 0)

theorem getD_map_range'_append_right (g : Nat → Value) (j m : Nat) (l : List Value)
    (hm : j ≤ m) (d : Value) :
    (((List.range' 0 j).map g) ++ l.drop j).getD m d = l.getD m d := by
  rw [List.getD_eq_getElem?_getD, List.getD_eq_getElem?_getD,
    List.getElem?_append_right (by simpa using hm), List.getElem?_drop]
  congr 2
  simp
  omega

theorem fmod_Tensor_out_ok_char (a b o r : Tensor)
    (hwf : o.data.length = numel o.sizes)
    (h : fmod_Tensor_out a b o = .ok r) :
    ∃ s, broadcastShape a.sizes b.sizes = some s ∧
      r = ⟨s, o.dtype, (List.range' 0 (numel s)).map
        (fun i => fmodVal (promoteTypes a.dtype b.dtype) o.dtype
          (bcastGet a s i) (bcastGet b s i))⟩ := by
  cases hbc : broadcastShape a.sizes b.sizes with
  | none =>
    unfold fmod_Tensor_out at h
    rw [hbc] at h
    cases h
  | some s =>
    refine ⟨s, rfl, ?_⟩
    cases hg1 : canCast (promoteTypes a.dtype b.dtype) o.dtype with
    | false =>
      exfalso
      unfold fmod_Tensor_out at h
      rw [hbc] at h
      simp only [resize_tensor_dtype, hg1, Bool.not_false, if_true] at h
      cases h
    | true =>
      cases hcr : isRealType (promoteTypes a.dtype b.dtype) with
      | false =>
        exfalso
        unfold fmod_Tensor_out at h
        rw [hbc] at h
        simp only [resize_tensor_dtype, hg1, hcr, isRealBType_true, Bool.not_true,
          Bool.not_false, Bool.false_eq_true, if_false, if_true] at h
        cases h
      | true =>
        rw [fmod_Tensor_out_compute a b o s hbc hg1 hcr] at h
        unfold fmodTensorApplied apply_binary_elementwise_fn at h
        rw [resize_tensor_sizes] at h
        dsimp only at h
        cases ho : (applyBinLoop (fmodElem (promoteTypes a.dtype b.dtype) o.dtype)
            a b s 0 (numel s)).2 with
        | some e => rw [ho] at h; cases h
        | none =>
          rw [ho] at h
          have hloop := applyBinLoop_none_eq
            (fmodElem (promoteTypes a.dtype b.dtype) o.dtype) a b s
            (fun i => fmodVal (promoteTypes a.dtype b.dtype) o.dtype
              (bcastGet a s i) (bcastGet b s i))
            (fun j v hv => fmodElem_ok_val hv) (numel s) 0 ho
          injection h with h2
          rw [← h2, hloop]
          have hdrop : (resize_tensor o s).data.drop
              (((List.range' 0 (numel s)).map
                (fun i => fmodVal (promoteTypes a.dtype b.dtype) o.dtype
                  (bcastGet a s i) (bcastGet b s i))).length) = [] := by
            apply List.drop_eq_nil_of_le
            rw [resize_tensor_length o s hwf]
            simp
          rw [hdrop, List.append_nil, resize_tensor_dtype]

theorem fmod_Scalar_out_ok_char (a : Tensor) (b : Scalar) (o r : Tensor)
    (hwf : o.data.length = numel o.sizes)
    (h : fmod_Scalar_out a b o = .ok r) :
    r = ⟨a.sizes, o.dtype, (List.range (numel a.sizes)).map
      (fun i => fmodVal (promote_type_with_scalar a.dtype b) o.dtype
        (a.data.getD i (Value.vi 0)) (extractScalar b))⟩ := by
  unfold fmod_Scalar_out at h
  simp only [isRealBType_true, isScalarObjType_dtype, resize_tensor_dtype,
    Bool.not_true, Bool.false_eq_true, if_false] at h
  split at h
  · cases h
  · split at h
    · cases h
    · split at h
      · cases h
      · split at h
        · cases h
        · injection h with h2
          rw [← h2]
          unfold apply_unary_map_fn
          rw [resize_tensor_sizes]
          have hdrop : (resize_tensor o a.sizes).data.drop (numel a.sizes) = [] := by
            apply List.drop_eq_nil_of_le
            rw [resize_tensor_length o a.sizes hwf]
          rw [hdrop, List.append_nil, resize_tensor_dtype]
          rfl

theorem fmod_Tensor_out_first_zero (a b o : Tensor) (s : List Nat) (j : Nat)
    (hbc : broadcastShape a.sizes b.sizes = some s)
    (hcast : canCast (promoteTypes a.dtype b.dtype) o.dtype = true)
    (hint : isIntTag (promoteTypes a.dtype b.dtype) = true)
    (hj : j < numel s)
    (hz : valIsZero (bcastGet b s j) = true)
    (hnz : ∀ m, m < j → valIsZero (bcastGet b s m) = false) :
    ∃ o2, fmod_Tensor_out a b o = .fatal .DomainViolation o2 ∧
      (∀ m, m < j → o2.data.getD m (Value.vi 0) =
        fmodVal (promoteTypes a.dtype b.dtype) o.dtype (bcastGet a s m) (bcastGet b s m)) ∧
      (∀ m, j ≤ m → o2.data.getD m (Value.vi 0) =
        (resize_tensor o s).data.getD m (Value.vi 0)) := by
  rw [fmod_Tensor_out_compute a b o s hbc hcast (isIntTag_real hint)]
  unfold fmodTensorApplied apply_binary_elementwise_fn
  rw [resize_tensor_sizes]
  dsimp only
  set g : Nat → Value := fun i =>
    fmodVal (promoteTypes a.dtype b.dtype) o.dtype (bcastGet a s i) (bcastGet b s i) with hgdef
  have hfirst := applyBinLoop_first_err
    (fmodElem (promoteTypes a.dtype b.dtype) o.dtype) a b s g j 0 (numel s) .DomainViolation
    (fun m hm => by
      rw [Nat.zero_add]
      exact fmodElem_nonzero _ (hnz m hm))
    (by
      rw [Nat.zero_add]
      exact fmodElem_int_zero o.dtype _ (isIntTag_integral hint) hz)
    hj
  rw [hfirst]
  refine ⟨_, rfl, ?_, ?_⟩
  · intro m hm
    exact getD_map_range'_append g j m _ hm (Value.vi 0)
  · intro m hm
    have hlen : ((List.range' 0 j).map g).length = j := by simp
    calc (((List.range' 0 j).map g) ++
          (resize_tensor o s).data.drop (((List.range' 0 j).map g).length)).getD m (Value.vi 0)
        = (((List.range' 0 j).map g) ++
          (resize_tensor o s).data.drop j).getD m (Value.vi 0) := by rw [hlen]
      _ = (resize_tensor o s).data.getD m (Value.vi 0) :=
          getD_map_range'_append_right g j m _ hm (Value.vi 0)

/-- C1: in either entry point, an integral common computation type with a
zero divisor (the broadcast-matched element of `b` in the Tensor case, the
extracted scalar in the Scalar case) makes the call abort with the fatal
DomainViolation check; a floating common computation type never aborts on
a zero divisor, and every output element is the native `std::fmod` result
of the matched operands. -/
theorem C1_zero_divisor_behaviour
    (a1 b1 o1 : Tensor) (s1 : List Nat) (j1 : Nat)
    (hbc1 : broadcastShape a1.sizes b1.sizes = some s1)
    (hcast1 : canCast (promoteTypes a1.dtype b1.dtype) o1.dtype = true)
    (hint1 : isIntTag (promoteTypes a1.dtype b1.dtype) = true)
    (hj1 : j1 < numel s1)
    (hz1 : valIsZero (bcastGet b1 s1 j1) = true)
    (a2 b2 o2 : Tensor) (s2 : List Nat)
    (hbc2 : broadcastShape a2.sizes b2.sizes = some s2)
    (hcast2 : canCast (promoteTypes a2.dtype b2.dtype) o2.dtype = true)
    (hfl2 : isFloatTag (promoteTypes a2.dtype b2.dtype) = true)
    (a3 : Tensor) (b3 : Scalar) (o3 : Tensor)
    (hcast3 : canCast (promote_type_with_scalar a3.dtype b3) o3.dtype = true)
    (hint3 : isIntTag (promote_type_with_scalar a3.dtype b3) = true)
    (hz3 : valIsZero (extractScalar b3) = true)
    (a4 : Tensor) (b4 : Scalar) (o4 : Tensor)
    (hcast4 : canCast (promote_type_with_scalar a4.dtype b4) o4.dtype = true)
    (hfl4 : isFloatTag (promote_type_with_scalar a4.dtype b4) = true) :
    (∃ ox, fmod_Tensor_out a1 b1 o1 = .fatal .DomainViolation ox) ∧
    (∃ r, fmod_Tensor_out a2 b2 o2 = .ok r ∧ r.sizes = s2 ∧
      ∀ i, i < numel s2 → r.data.getD i (Value.vi 0) =
        fmodVal (promoteTypes a2.dtype b2.dtype) o2.dtype
          (bcastGet a2 s2 i) (bcastGet b2 s2 i)) ∧
    (fmod_Scalar_out a3 b3 o3 = .fatal .DomainViolation (resize_tensor o3 a3.sizes)) ∧
    (∃ r, fmod_Scalar_out a4 b4 o4 = .ok r ∧ r.sizes = a4.sizes ∧
      ∀ i, i < numel a4.sizes → r.data.getD i (Value.vi 0) =
        fmodVal (promote_type_with_scalar a4.dtype b4) o4.dtype
          (a4.data.getD i (Value.vi 0)) (extractScalar b4)) :=
  ⟨fmod_Tensor_int_zero_divisor a1 b1 o1 s1 j1 hbc1 hcast1 hint1 hj1 hz1,
   fmod_Tensor_float_total a2 b2 o2 s2 hbc2 hcast2 hfl2,
   fmod_Scalar_int_zero a3 b3 o3 hcast3 hint3 hz3,
   fmod_Scalar_float_total a4 b4 o4 hcast4 hfl4⟩

/-- C1 witness: the four cases of `C1_zero_divisor_behaviour` instantiated
at concrete one-element calls (int tensors with divisor 0; float tensors
with divisor 0.0; int tensor with scalar 0; float tensor with float scalar
0.0), every hypothesis discharged by evaluation. -/
theorem C1_zero_divisor_behaviour_witness :
    (broadcastShape ([1] : List Nat) [1] = some [1] ∧
     canCast (promoteTypes ScalarType.Int ScalarType.Int) ScalarType.Int = true ∧
     isIntTag (promoteTypes ScalarType.Int ScalarType.Int) = true ∧
     0 < numel [1] ∧
     valIsZero (bcastGet ⟨[1], .Int, [.vi 0]⟩ [1] 0) = true ∧
     canCast (promoteTypes ScalarType.Float ScalarType.Float) ScalarType.Float = true ∧
     isFloatTag (promoteTypes ScalarType.Float ScalarType.Float) = true ∧
     canCast (promote_type_with_scalar ScalarType.Int (.i 0)) ScalarType.Int = true ∧
     isIntTag (promote_type_with_scalar ScalarType.Int (.i 0)) = true ∧
     valIsZero (extractScalar (.i 0)) = true ∧
     canCast (promote_type_with_scalar ScalarType.Float (.f (.num 0))) ScalarType.Float = true ∧
     isFloatTag (promote_type_with_scalar ScalarType.Float (.f (.num 0))) = true) ∧
    ((∃ ox, fmod_Tensor_out ⟨[1], .Int, [.vi 5]⟩ ⟨[1], .Int, [.vi 0]⟩
        ⟨[1], .Int, [.vi 7]⟩ = .fatal .DomainViolation ox) ∧
     (∃ r, fmod_Tensor_out ⟨[1], .Float, [.vf (.num (mkRat 11 2))]⟩
        ⟨[1], .Float, [.vf (.num 0)]⟩ ⟨[1], .Float, [.vf (.num 9)]⟩ = .ok r ∧
        r.sizes = [1] ∧
        ∀ i, i < numel [1] → r.data.getD i (Value.vi 0) =
          fmodVal (promoteTypes (Tensor.mk [1] .Float [.vf (.num (mkRat 11 2))]).dtype
              (Tensor.mk [1] .Float [.vf (.num 0)]).dtype)
            (Tensor.mk [1] .Float [.vf (.num 9)]).dtype
            (bcastGet ⟨[1], .Float, [.vf (.num (mkRat 11 2))]⟩ [1] i)
            (bcastGet ⟨[1], .Float, [.vf (.num 0)]⟩ [1] i)) ∧
     (fmod_Scalar_out ⟨[1], .Int, [.vi 5]⟩ (.i 0) ⟨[1], .Int, [.vi 7]⟩ =
        .fatal .DomainViolation (resize_tensor ⟨[1], .Int, [.vi 7]⟩ [1])) ∧
     (∃ r, fmod_Scalar_out ⟨[1], .Float, [.vf (.num (mkRat 11 2))]⟩ (.f (.num 0))
        ⟨[1], .Float, [.vf (.num 0)]⟩ = .ok r ∧
        r.sizes = [1] ∧
        ∀ i, i < numel ([1] : List Nat) → r.data.getD i (Value.vi 0) =
          fmodVal (promote_type_with_scalar (Tensor.mk [1] .Float
              [.vf (.num (mkRat 11 2))]).dtype (.f (.num 0)))
            (Tensor.mk [1] .Float [.vf (.num 0)]).dtype
            ((Tensor.mk [1] .Float [.vf (.num (mkRat 11 2))]).data.getD i (Value.vi 0))
            (extractScalar (.f (.num 0))))) :=
  ⟨by decide,
   C1_zero_divisor_behaviour
    ⟨[1], .Int, [.vi 5]⟩ ⟨[1], .Int, [.vi 0]⟩ ⟨[1], .Int, [.vi 7]⟩ [1] 0
    (by decide) (by decide) (by decide) (by decide) (by decide)
    ⟨[1], .Float, [.vf (.num (mkRat 11 2))]⟩ ⟨[1], .Float, [.vf (.num 0)]⟩
    ⟨[1], .Float, [.vf (.num 9)]⟩ [1]
    (by decide) (by decide) (by decide)
    ⟨[1], .Int, [.vi 5]⟩ (.i 0) ⟨[1], .Int, [.vi 7]⟩
    (by decide) (by decide) (by decide)
    ⟨[1], .Float, [.vf (.num (mkRat 11 2))]⟩ (.f (.num 0)) ⟨[1], .Float, [.vf (.num 0)]⟩
    (by decide) (by decide)⟩

/-- C2 counterexample: an integral `fmod_Tensor_out` call with divisor
`b = [2, 0]` detects the zero divisor at position 1 and aborts with
DomainViolation, but position 0 of `out` (previous content 9) has already
been overwritten with the computed result `5 fmod 2 = 1`, so the claim
that no position of `out` is written when a zero divisor is detected is
false. -/
theorem C2_partial_write_counterexample :
    fmod_Tensor_out ⟨[2], .Int, [.vi 5, .vi 5]⟩ ⟨[2], .Int, [.vi 2, .vi 0]⟩
      ⟨[2], .Int, [.vi 9, .vi 9]⟩ =
      .fatal .DomainViolation ⟨[2], .Int, [.vi 1, .vi 9]⟩ ∧
    fmodVal ScalarType.Int ScalarType.Int (.vi 5) (.vi 2) = .vi 1 ∧
    ([Value.vi 1, Value.vi 9] : List Value) ≠ [Value.vi 9, Value.vi 9] := by
  decide

/-- C2 (amended): when an integral `fmod_Tensor_out` call has its first
zero broadcast-matched divisor element at position `j`, the call aborts
with the fatal DomainViolation check; no position at or after `j` is
written (those positions keep the post-resize buffer contents), while
every position before `j` has already been written with its computed
result. -/
theorem C2_first_zero_abort (a b o : Tensor) (s : List Nat) (j : Nat)
    (hbc : broadcastShape a.sizes b.sizes = some s)
    (hcast : canCast (promoteTypes a.dtype b.dtype) o.dtype = true)
    (hint : isIntTag (promoteTypes a.dtype b.dtype) = true)
    (hj : j < numel s)
    (hz : valIsZero (bcastGet b s j) = true)
    (hnz : ∀ m, m < j → valIsZero (bcastGet b s m) = false) :
    ∃ o2, fmod_Tensor_out a b o = .fatal .DomainViolation o2 ∧
      (∀ m, m < j → o2.data.getD m (Value.vi 0) =
        fmodVal (promoteTypes a.dtype b.dtype) o.dtype (bcastGet a s m) (bcastGet b s m)) ∧
      (∀ m, j ≤ m → o2.data.getD m (Value.vi 0) =
        (resize_tensor o s).data.getD m (Value.vi 0)) :=
  fmod_Tensor_out_first_zero a b o s j hbc hcast hint hj hz hnz

/-- C2 witness: `C2_first_zero_abort` at the concrete call with
`a = [5, 5]`, `b = [2, 0]` (first zero divisor at position 1). -/
theorem C2_first_zero_abort_witness :
    (broadcastShape ([2] : List Nat) [2] = some [2] ∧
     canCast (promoteTypes ScalarType.Int ScalarType.Int) ScalarType.Int = true ∧
     isIntTag (promoteTypes ScalarType.Int ScalarType.Int) = true ∧
     1 < numel [2] ∧
     valIsZero (bcastGet ⟨[2], .Int, [.vi 2, .vi 0]⟩ [2] 1) = true ∧
     (∀ m, m < 1 → valIsZero (bcastGet ⟨[2], .Int, [.vi 2, .vi 0]⟩ [2] m) = false)) ∧
    (∃ o2, fmod_Tensor_out ⟨[2], .Int, [.vi 5, .vi 5]⟩ ⟨[2], .Int, [.vi 2, .vi 0]⟩
        ⟨[2], .Int, [.vi 9, .vi 9]⟩ = .fatal .DomainViolation o2 ∧
      (∀ m, m < 1 → o2.data.getD m (Value.vi 0) =
        fmodVal (promoteTypes (Tensor.mk [2] .Int [.vi 5, .vi 5]).dtype
            (Tensor.mk [2] .Int [.vi 2, .vi 0]).dtype)
          (Tensor.mk [2] .Int [.vi 9, .vi 9]).dtype
          (bcastGet ⟨[2], .Int, [.vi 5, .vi 5]⟩ [2] m)
          (bcastGet ⟨[2], .Int, [.vi 2, .vi 0]⟩ [2] m)) ∧
      (∀ m, 1 ≤ m → o2.data.getD m (Value.vi 0) =
        (resize_tensor ⟨[2], .Int, [.vi 9, .vi 9]⟩ [2]).data.getD m (Value.vi 0))) :=
  ⟨by decide,
   C2_first_zero_abort ⟨[2], .Int, [.vi 5, .vi 5]⟩ ⟨[2], .Int, [.vi 2, .vi 0]⟩
    ⟨[2], .Int, [.vi 9, .vi 9]⟩ [2] 1
    (by decide) (by decide) (by decide) (by decide) (by decide) (by decide)⟩

/-- C3: integer tensors `a = [5, 7, -3]`, `b = [2, 2, 2]` with integer
compute and output type produce `out = [1, 1, -1]` (truncating remainder,
sign of the dividend). -/
theorem C3_integer_remainder_example :
    fmod_Tensor_out ⟨[3], .Int, [.vi 5, .vi 7, .vi (-3)]⟩
      ⟨[3], .Int, [.vi 2, .vi 2, .vi 2]⟩ ⟨[3], .Int, [.vi 0, .vi 0, .vi 0]⟩ =
    .ok ⟨[3], .Int, [.vi 1, .vi 1, .vi (-1)]⟩ := by
  decide

/-- C4: in either entry point, when `canCast` rejects the promoted common
type against the output tag, the call aborts with the fatal CastNotAllowed
check; the output tensor carried at the abort is exactly the resized one —
no element has been computed or written. -/
theorem C4_cast_not_allowed
    (a b o : Tensor) (s : List Nat)
    (hbc : broadcastShape a.sizes b.sizes = some s)
    (hcast : canCast (promoteTypes a.dtype b.dtype) o.dtype = false)
    (a2 : Tensor) (b2 : Scalar) (o2 : Tensor)
    (hcast2 : canCast (promote_type_with_scalar a2.dtype b2) o2.dtype = false) :
    fmod_Tensor_out a b o = .fatal .CastNotAllowed (resize_tensor o s) ∧
    fmod_Scalar_out a2 b2 o2 = .fatal .CastNotAllowed (resize_tensor o2 a2.sizes) := by
  constructor
  · unfold fmod_Tensor_out
    rw [hbc]
    simp only [resize_tensor_dtype, hcast, Bool.not_false, if_true]
  · unfold fmod_Scalar_out
    simp only [resize_tensor_dtype, hcast2, Bool.not_false, if_true]

/-- C4 witness: float inputs with an int output tag (`canCast` false) in
both entry points. -/
theorem C4_cast_not_allowed_witness :
    (broadcastShape ([1] : List Nat) [1] = some [1] ∧
     canCast (promoteTypes ScalarType.Float ScalarType.Float) ScalarType.Int = false ∧
     canCast (promote_type_with_scalar ScalarType.Float (.i 2)) ScalarType.Int = false) ∧
    (fmod_Tensor_out ⟨[1], .Float, [.vf (.num 1)]⟩ ⟨[1], .Float, [.vf (.num 1)]⟩
        ⟨[1], .Int, [.vi 7]⟩ =
      .fatal .CastNotAllowed (resize_tensor ⟨[1], .Int, [.vi 7]⟩ [1]) ∧
     fmod_Scalar_out ⟨[1], .Float, [.vf (.num 1)]⟩ (.i 2) ⟨[1], .Int, [.vi 7]⟩ =
      .fatal .CastNotAllowed (resize_tensor ⟨[1], .Int, [.vi 7]⟩ [1])) :=
  ⟨by decide,
   C4_cast_not_allowed ⟨[1], .Float, [.vf (.num 1)]⟩ ⟨[1], .Float, [.vf (.num 1)]⟩
    ⟨[1], .Int, [.vi 7]⟩ [1] (by decide) (by decide)
    ⟨[1], .Float, [.vf (.num 1)]⟩ (.i 2) ⟨[1], .Int, [.vi 7]⟩ (by decide)⟩

/-- C5: when the operand shapes are not broadcast-compatible,
`fmod_Tensor_out` aborts with the fatal ShapeMismatch check and the output
tensor is carried through completely unmodified (shape and buffer). -/
theorem C5_shape_mismatch (a b o : Tensor)
    (h : broadcastShape a.sizes b.sizes = none) :
    fmod_Tensor_out a b o = .fatal .ShapeMismatch o := by
  unfold fmod_Tensor_out
  rw [h]

/-- C5 witness: the incompatible shapes `[3, 4]` and `[3, 5]` of the spec
example. -/
theorem C5_shape_mismatch_witness :
    broadcastShape ([3, 4] : List Nat) [3, 5] = none ∧
    fmod_Tensor_out ⟨[3, 4], .Int, List.replicate 12 (.vi 1)⟩
        ⟨[3, 5], .Int, List.replicate 15 (.vi 1)⟩ ⟨[1], .Int, [.vi 7]⟩ =
      .fatal .ShapeMismatch ⟨[1], .Int, [.vi 7]⟩ :=
  ⟨by decide,
   C5_shape_mismatch ⟨[3, 4], .Int, List.replicate 12 (.vi 1)⟩
    ⟨[3, 5], .Int, List.replicate 15 (.vi 1)⟩ ⟨[1], .Int, [.vi 7]⟩ (by decide)⟩

/-- C6: `promoteTypes` is total over the TypeTag set (always yields some
tag), commutative, and idempotent on equal arguments. -/
theorem C6_promoteTypes_total_comm_idem :
    (∀ x y : ScalarType, ∃ z : ScalarType, promoteTypes x y = z) ∧
    (∀ x y : ScalarType, promoteTypes x y = promoteTypes y x) ∧
    (∀ t : ScalarType, promoteTypes t t = t) := by
  decide

/-- C7: float tensor `a = [5.5]` with integer scalar `b = 2` and float
output: the common type resolves to the tensor floating tag via
`promote_type_with_scalar`, and the output is `[1.5]` exactly. -/
theorem C7_float_scalar_example :
    promote_type_with_scalar ScalarType.Float (.i 2) = ScalarType.Float ∧
    fmod_Scalar_out ⟨[1], .Float, [.vf (.num (mkRat 11 2))]⟩ (.i 2)
      ⟨[1], .Float, [.vf (.num 0)]⟩ =
    .ok ⟨[1], .Float, [.vf (.num (mkRat 3 2))]⟩ := by
  decide

/-- C8: both entry points are deterministic — the produced output buffer
is a function of the inputs and the output tensor configuration (element
tag) alone; two successful runs over well-formed output tensors with equal
tags produce identical result tensors, whatever stale contents the output
buffers held. -/
theorem C8_deterministic
    (a b o1 o2 r1 r2 : Tensor)
    (hd : o1.dtype = o2.dtype)
    (hw1 : o1.data.length = numel o1.sizes)
    (hw2 : o2.data.length = numel o2.sizes)
    (h1 : fmod_Tensor_out a b o1 = .ok r1)
    (h2 : fmod_Tensor_out a b o2 = .ok r2)
    (aS : Tensor) (bS : Scalar) (p1 p2 q1 q2 : Tensor)
    (hdS : p1.dtype = p2.dtype)
    (hwS1 : p1.data.length = numel p1.sizes)
    (hwS2 : p2.data.length = numel p2.sizes)
    (hS1 : fmod_Scalar_out aS bS p1 = .ok q1)
    (hS2 : fmod_Scalar_out aS bS p2 = .ok q2) :
    r1 = r2 ∧ q1 = q2 := by
  constructor
  · obtain ⟨s1, hbc1, hr1⟩ := fmod_Tensor_out_ok_char a b o1 r1 hw1 h1
    obtain ⟨s2, hbc2, hr2⟩ := fmod_Tensor_out_ok_char a b o2 r2 hw2 h2
    rw [hbc1] at hbc2
    injection hbc2 with hs
    subst hs
    rw [hr1, hr2, hd]
  · have hq1 := fmod_Scalar_out_ok_char aS bS p1 q1 hwS1 hS1
    have hq2 := fmod_Scalar_out_ok_char aS bS p2 q2 hwS2 hS2
    rw [hq1, hq2, hdS]

/-- C8 witness: two runs of each entry point over output buffers with
different stale contents produce the same result tensor. -/
theorem C8_deterministic_witness :
    ((Tensor.mk [1] .Int [.vi 5]).dtype = (Tensor.mk [1] .Int [.vi 8]).dtype ∧
     (Tensor.mk [1] .Int [.vi 5]).data.length = numel [1] ∧
     (Tensor.mk [1] .Int [.vi 8]).data.length = numel [1] ∧
     fmod_Tensor_out ⟨[1], .Int, [.vi 7]⟩ ⟨[1], .Int, [.vi 3]⟩ ⟨[1], .Int, [.vi 5]⟩ =
       .ok ⟨[1], .Int, [.vi 1]⟩ ∧
     fmod_Tensor_out ⟨[1], .Int, [.vi 7]⟩ ⟨[1], .Int, [.vi 3]⟩ ⟨[1], .Int, [.vi 8]⟩ =
       .ok ⟨[1], .Int, [.vi 1]⟩ ∧
     fmod_Scalar_out ⟨[1], .Int, [.vi 7]⟩ (.i 3) ⟨[1], .Int, [.vi 5]⟩ =
       .ok ⟨[1], .Int, [.vi 1]⟩ ∧
     fmod_Scalar_out ⟨[1], .Int, [.vi 7]⟩ (.i 3) ⟨[1], .Int, [.vi 6]⟩ =
       .ok ⟨[1], .Int, [.vi 1]⟩) ∧
    ((Tensor.mk [1] .Int [.vi 1]) = ⟨[1], .Int, [.vi 1]⟩ ∧
     (Tensor.mk [1] .Int [.vi 1]) = ⟨[1], .Int, [.vi 1]⟩) :=
  ⟨by decide,
   C8_deterministic ⟨[1], .Int, [.vi 7]⟩ ⟨[1], .Int, [.vi 3]⟩
    ⟨[1], .Int, [.vi 5]⟩ ⟨[1], .Int, [.vi 8]⟩ ⟨[1], .Int, [.vi 1]⟩ ⟨[1], .Int, [.vi 1]⟩
    (by decide) (by decide) (by decide) (by decide) (by decide)
    ⟨[1], .Int, [.vi 7]⟩ (.i 3)
    ⟨[1], .Int, [.vi 5]⟩ ⟨[1], .Int, [.vi 6]⟩ ⟨[1], .Int, [.vi 1]⟩ ⟨[1], .Int, [.vi 1]⟩
    (by decide) (by decide) (by decide) (by decide) (by decide)⟩

/-- C9: two boolean input tensors make the promoted common type boolean;
`canCast` still succeeds for any output tag, but the compute-type dispatch
covers only the real types, so the call aborts with the fatal
UnsupportedType failure at that dispatch level. -/
theorem C9_bool_bool_unsupported (a b o : Tensor) (s : List Nat)
    (ha : a.dtype = .Bool) (hb : b.dtype = .Bool)
    (hbc : broadcastShape a.sizes b.sizes = some s) :
    canCast (promoteTypes a.dtype b.dtype) o.dtype = true ∧
    fmod_Tensor_out a b o = .fatal .UnsupportedType (resize_tensor o s) := by
  have hcc : ∀ t, canCast (promoteTypes ScalarType.Bool ScalarType.Bool) t = true := by
    decide
  have hcr : isRealType (promoteTypes ScalarType.Bool ScalarType.Bool) = false := by
    decide
  constructor
  · rw [ha, hb]
    exact hcc o.dtype
  · unfold fmod_Tensor_out
    rw [hbc, ha, hb]
    simp only [resize_tensor_dtype, hcc o.dtype, hcr, isRealBType_true, Bool.not_true,
      Bool.not_false, Bool.false_eq_true, if_false, if_true]

/-- C9 witness: boolean `[1]`-shaped inputs with an int output tag. -/
theorem C9_bool_bool_unsupported_witness :
    ((Tensor.mk [1] .Bool [.vi 1]).dtype = ScalarType.Bool ∧
     (Tensor.mk [1] .Bool [.vi 0]).dtype = ScalarType.Bool ∧
     broadcastShape ([1] : List Nat) [1] = some [1]) ∧
    (canCast (promoteTypes (Tensor.mk [1] .Bool [.vi 1]).dtype
        (Tensor.mk [1] .Bool [.vi 0]).dtype) ScalarType.Int = true ∧
     fmod_Tensor_out ⟨[1], .Bool, [.vi 1]⟩ ⟨[1], .Bool, [.vi 0]⟩ ⟨[1], .Int, [.vi 7]⟩ =
       .fatal .UnsupportedType (resize_tensor ⟨[1], .Int, [.vi 7]⟩ [1])) :=
  ⟨by decide,
   C9_bool_bool_unsupported ⟨[1], .Bool, [.vi 1]⟩ ⟨[1], .Bool, [.vi 0]⟩
    ⟨[1], .Int, [.vi 7]⟩ [1] (by decide) (by decide) (by decide)⟩

/-- C10: in both entry points the output tensor is resized before the
`canCast` check, so a CastNotAllowed abort carries the already-resized
output (whose shape and buffer can differ from the originals), and a
concrete call exhibits an output whose shape and buffer were indeed
changed by the resize before the abort; the inputs are never written on
any path (the embedding takes them immutably). -/
theorem C10_resize_precedes_cast_check
    (a b o : Tensor) (s : List Nat)
    (hbc : broadcastShape a.sizes b.sizes = some s)
    (hcast : canCast (promoteTypes a.dtype b.dtype) o.dtype = false)
    (a2 : Tensor) (b2 : Scalar) (o2 : Tensor)
    (hcast2 : canCast (promote_type_with_scalar a2.dtype b2) o2.dtype = false) :
    (fmod_Tensor_out a b o = .fatal .CastNotAllowed (resize_tensor o s) ∧
     fmod_Scalar_out a2 b2 o2 = .fatal .CastNotAllowed (resize_tensor o2 a2.sizes)) ∧
    (∃ oC, fmod_Tensor_out ⟨[2], .Float, [.vf (.num 1), .vf (.num 1)]⟩
        ⟨[2], .Float, [.vf (.num 1), .vf (.num 1)]⟩ ⟨[1], .Int, [.vi 7]⟩ =
        .fatal .CastNotAllowed oC ∧
      oC.sizes ≠ (Tensor.mk [1] .Int [.vi 7]).sizes ∧
      oC.data ≠ (Tensor.mk [1] .Int [.vi 7]).data) := by
  constructor
  · constructor
    · unfold fmod_Tensor_out
      rw [hbc]
      simp only [resize_tensor_dtype, hcast, Bool.not_false, if_true]
    · unfold fmod_Scalar_out
      simp only [resize_tensor_dtype, hcast2, Bool.not_false, if_true]
  · exact ⟨⟨[2], .Int, [.vi 0, .vi 0]⟩, by decide, by decide, by decide⟩

/-- C10 witness: a shape-`[2]` float pair against a shape-`[1]` int
output. -/
theorem C10_resize_precedes_cast_check_witness :
    (broadcastShape ([2] : List Nat) [2] = some [2] ∧
     canCast (promoteTypes ScalarType.Float ScalarType.Float) ScalarType.Int = false ∧
     canCast (promote_type_with_scalar ScalarType.Float (.f (.num 1))) ScalarType.Int = false) ∧
    ((fmod_Tensor_out ⟨[2], .Float, [.vf (.num 1), .vf (.num 1)]⟩
        ⟨[2], .Float, [.vf (.num 1), .vf (.num 1)]⟩ ⟨[1], .Int, [.vi 7]⟩ =
        .fatal .CastNotAllowed (resize_tensor ⟨[1], .Int, [.vi 7]⟩ [2]) ∧
      fmod_Scalar_out ⟨[1], .Float, [.vf (.num 1)]⟩ (.f (.num 1)) ⟨[1], .Int, [.vi 7]⟩ =
        .fatal .CastNotAllowed (resize_tensor ⟨[1], .Int, [.vi 7]⟩ [1])) ∧
     (∃ oC, fmod_Tensor_out ⟨[2], .Float, [.vf (.num 1), .vf (.num 1)]⟩
        ⟨[2], .Float, [.vf (.num 1), .vf (.num 1)]⟩ ⟨[1], .Int, [.vi 7]⟩ =
        .fatal .CastNotAllowed oC ∧
      oC.sizes ≠ (Tensor.mk [1] .Int [.vi 7]).sizes ∧
      oC.data ≠ (Tensor.mk [1] .Int [.vi 7]).data)) :=
  ⟨by decide,
   C10_resize_precedes_cast_check
    ⟨[2], .Float, [.vf (.num 1), .vf (.num 1)]⟩
    ⟨[2], .Float, [.vf (.num 1), .vf (.num 1)]⟩ ⟨[1], .Int, [.vi 7]⟩ [2]
    (by decide) (by decide)
    ⟨[1], .Float, [.vf (.num 1)]⟩ (.f (.num 1)) ⟨[1], .Int, [.vi 7]⟩ (by decide)⟩
